import Mathlib

/-!
Verification of the monoio legacy driver (src/monoio/src/driver/legacy/mod.rs).

The driver file itself is embedded faithfully below.  Its in-repository
dependencies (the slab allocator `crate::utils::slab::Slab`, the readiness
cell `ScheduledIo` with its `Ready` bitmask from `driver/ready.rs`, and the
waker queue from `driver/legacy/waker.rs`) are not part of the given sources,
so they are modelled from the specification, as marked on each definition.
External collaborators (the OS multiplexer, the user retry callback) are
oracle parameters: their results are inputs to the embedded functions.
-/

namespace Monoio

/-- Wakers are modelled as opaque identifiers; invoking a waker is recorded
by appending its identifier to an output list. -/
abbrev Waker := Nat

/-! Readiness bitmask.  Modelled from the spec: `driver/ready.rs` is not in
the sources; the spec lists the bits readable, writable, read-closed,
write-closed, read-canceled, write-canceled. -/

def Ready.READABLE : Nat := 1

def Ready.WRITABLE : Nat := 2

def Ready.READ_CLOSED : Nat := 4

def Ready.WRITE_CLOSED : Nat := 8

def Ready.READ_CANCELED : Nat := 16

def Ready.WRITE_CANCELED : Nat := 32

/-- Union of the two cancellation bits (`Ready::CANCELED`). -/
def Ready.CANCELED : Nat := Ready.READ_CANCELED ||| Ready.WRITE_CANCELED

/-- `Ready::is_canceled`: does the mask contain a cancellation bit? -/
def Ready.is_canceled (r : Nat) : Bool := r &&& Ready.CANCELED != 0

/-- I/O direction (`driver/ready.rs::Direction`). -/
inductive Direction
  | read
  | write
deriving DecidableEq

/-- Modelled from the spec: `Direction::mask` selects all readiness bits
relevant to one direction, its cancellation bit included. -/
def Direction.mask : Direction → Nat
  | .read => Ready.READABLE ||| Ready.READ_CLOSED ||| Ready.READ_CANCELED
  | .write => Ready.WRITABLE ||| Ready.WRITE_CLOSED ||| Ready.WRITE_CANCELED

/-- The cancellation bit belonging to one direction. -/
def Direction.cancelMask : Direction → Nat
  | .read => Ready.READ_CANCELED
  | .write => Ready.WRITE_CANCELED

/-- Clear in `r` every bit present in `m` (bitwise `r & !m` on masks). -/
def clearMask (r m : Nat) : Nat := r ^^^ (r &&& m)

/-- Modelled from the spec: the Readiness Cell (`driver/scheduled_io.rs`) —
a readiness bitmask plus at most one stored waker per direction. -/
structure ScheduledIo where
  readiness : Nat
  reader : Option Waker
  writer : Option Waker
deriving DecidableEq

/-- A fresh, empty cell (`ScheduledIo::new` / `::default`). -/
def ScheduledIo.new : ScheduledIo := ⟨0, none, none⟩

/-- Modelled from the spec: combine a readiness update into the mask. -/
def ScheduledIo.set_readiness (io : ScheduledIo) (f : Nat → Nat) : ScheduledIo :=
  { io with readiness := f io.readiness }

/-- Modelled from the spec: invoke and clear any stored waker whose
direction intersects the update. -/
def ScheduledIo.wake (io : ScheduledIo) (ready : Nat) : ScheduledIo × List Waker :=
  let readerHit := ready &&& Direction.read.mask != 0
  let writerHit := ready &&& Direction.write.mask != 0
  let woken := (if readerHit then io.reader.toList else []) ++
    (if writerHit then io.writer.toList else [])
  ({ io with
      reader := if readerHit then none else io.reader
      writer := if writerHit then none else io.writer }, woken)

/-- Modelled from the spec: clear the given readiness bits. -/
def ScheduledIo.clear_readiness (io : ScheduledIo) (mask : Nat) : ScheduledIo :=
  { io with readiness := clearMask io.readiness mask }

/-- Modelled from the spec: store the caller's waker for a direction. -/
def ScheduledIo.set_waker (io : ScheduledIo) (d : Direction) (w : Waker) : ScheduledIo :=
  match d with
  | .read => { io with reader := some w }
  | .write => { io with writer := some w }

/-- The waker currently stored for a direction. -/
def ScheduledIo.wakerFor (io : ScheduledIo) (d : Direction) : Option Waker :=
  match d with
  | .read => io.reader
  | .write => io.writer

/-! Registration Table.  Modelled from the spec: `crate::utils::slab::Slab`
is not in the sources; the spec gives `insert -> token`, `get -> Option`,
`remove` a no-op on unknown tokens, with tokens stable until freed and
reused only after an explicit free. -/

/-- Element at index `i`, `none` when out of range. -/
def nth {α : Type} : List α → Nat → Option α
  | [], _ => none
  | a :: _, 0 => some a
  | _ :: t, n + 1 => nth t n

/-- Replace the element at index `i`; identity when out of range. -/
def setIdx {α : Type} : List α → Nat → α → List α
  | [], _, _ => []
  | _ :: t, 0, b => b :: t
  | a :: t, n + 1, b => a :: setIdx t n b

/-- Index of the first free (vacant) slot, if any. -/
def firstFree {α : Type} : List (Option α) → Option Nat
  | [] => none
  | none :: _ => some 0
  | some _ :: t => (firstFree t).map (· + 1)

/-- Modelled from the spec: the slab is a list of slots, each either
occupied (`some`) or vacant (`none`); a token is a slot index. -/
structure Slab (α : Type) where
  entries : List (Option α)
deriving DecidableEq

/-- `Slab::get`: look a token up; `none` for vacant or unknown tokens. -/
def Slab.get {α : Type} (s : Slab α) (t : Nat) : Option α :=
  (nth s.entries t).join

/-- `Slab::remove`: vacate a slot; a no-op on unknown tokens. -/
def Slab.remove {α : Type} (s : Slab α) (t : Nat) : Slab α :=
  ⟨setIdx s.entries t none⟩

/-- Overwrite the cell stored under a token (in-place cell mutation). -/
def Slab.update {α : Type} (s : Slab α) (t : Nat) (v : α) : Slab α :=
  ⟨setIdx s.entries t (some v)⟩

/-- `Slab::insert`: occupy the first vacant slot, else grow; returns the
token together with the new table. -/
def Slab.insert {α : Type} (s : Slab α) (v : α) : Nat × Slab α :=
  match firstFree s.entries with
  | some i => (i, ⟨setIdx s.entries i (some v)⟩)
  | none => (s.entries.length, ⟨s.entries ++ [some v]⟩)

/-! I/O errors and completion results. -/

/-- The error kinds the driver inspects (`std::io::ErrorKind`). -/
inductive ErrorKind
  | interrupted
  | wouldBlock
  | other
deriving DecidableEq

/-- A `std::io::Error`: its kind plus an optional raw OS error code. -/
structure IoError where
  kind : ErrorKind
  raw_os_error : Option Nat
deriving DecidableEq

/-- `io::Error::from_raw_os_error` (code 125 is the fixed
operation-canceled error). -/
def IoError.from_raw_os_error (code : Nat) : IoError := ⟨.other, some code⟩

/-- `std::task::Poll`. -/
inductive Poll (α : Type)
  | pending
  | ready (v : α)

/-- `CompletionMeta`: syscall result plus flags. -/
structure CompletionMeta where
  result : Except IoError Int
  flags : Nat

/-- The operation handle built by `submit_with_data` (`driver/op.rs::Op`,
fields as constructed in `mod.rs`: an index and the stored payload). -/
structure Op (α : Type) where
  index : Nat
  data : Option α

/-! The driver functions, embedded from `driver/legacy/mod.rs`.  The
multiplexer's answer to each register/deregister/wait syscall is an oracle
parameter. -/

/-- `LegacyDriver::register` (unix, lines 233-250): insert a fresh cell
into the table, then register with the multiplexer under that token; on
multiplexer failure remove the just-inserted slot and propagate the error. -/
def LegacyDriver.register (s : Slab ScheduledIo) (muxResult : Except IoError Unit) :
    Except IoError Nat × Slab ScheduledIo :=
  let inserted := s.insert ScheduledIo.new
  match muxResult with
  | .ok _ => (.ok inserted.1, inserted.2)
  | .error e => (.error e, inserted.2.remove inserted.1)

/-- `LegacyDriver::deregister` (unix, lines 252-268): deregister from the
multiplexer first; only on success remove the slot from the table. -/
def LegacyDriver.deregister (s : Slab ScheduledIo) (token : Nat)
    (muxResult : Except IoError Unit) : Except IoError Unit × Slab ScheduledIo :=
  match muxResult with
  | .ok _ => (.ok (), s.remove token)
  | .error e => (.error e, s)

/-- `LegacyInner::dispatch` (lines 272-282): look the token up; absent
tokens are dropped silently; otherwise OR the update into the readiness
mask and wake intersecting wakers.  Returns the new table and the invoked
wakers. -/
def LegacyInner.dispatch (s : Slab ScheduledIo) (token : Nat) (ready : Nat) :
    Slab ScheduledIo × List Waker :=
  match s.get token with
  | none => (s, [])
  | some io =>
    let io1 := io.set_readiness (fun curr => curr ||| ready)
    let woken := io1.wake ready
    (s.update token woken.1, woken.2)

/-- `LegacyInner::poll_op` (lines 284-333).  `legacy_interest` is the
operation's fd dependency (`None` = direct syscall); `legacy_call` is the
oracle result of the user retry callback; `w` is the caller's waker.  A
`.error` result models the `expect("scheduled_io lost")` panic.  The
suspension path stores the waker (`poll_readiness`, modelled from the
spec). -/
def LegacyInner.poll_op (s : Slab ScheduledIo)
    (legacy_interest : Option (Direction × Nat))
    (legacy_call : Except IoError Int) (w : Waker) :
    Except String (Poll CompletionMeta × Slab ScheduledIo) :=
  match legacy_interest with
  | none => .ok (.ready ⟨legacy_call, 0⟩, s)
  | some (direction, index) =>
    match s.get index with
    | none => .error "scheduled_io lost"
    | some io =>
      let readiness := io.readiness &&& direction.mask
      if readiness = 0 then
        .ok (.pending, s.update index (io.set_waker direction w))
      else if Ready.is_canceled readiness then
        let io1 := io.clear_readiness (readiness &&& Ready.CANCELED)
        .ok (.ready ⟨.error (IoError.from_raw_os_error 125), 0⟩, s.update index io1)
      else
        match legacy_call with
        | .ok n => .ok (.ready ⟨.ok n, 0⟩, s)
        | .error e =>
          if e.kind = .wouldBlock then
            let io1 := (io.clear_readiness direction.mask).set_waker direction w
            .ok (.pending, s.update index io1)
          else
            .ok (.ready ⟨.error e, 0⟩, s)

/-- `LegacyInner::cancel_op` (lines 335-346): dispatch the direction's
cancellation bit through the normal dispatch path. -/
def LegacyInner.cancel_op (s : Slab ScheduledIo) (index : Nat)
    (direction : Direction) : Slab ScheduledIo × List Waker :=
  LegacyInner.dispatch s index
    (match direction with
      | .read => Ready.READ_CANCELED
      | .write => Ready.WRITE_CANCELED)

/-- `LegacyInner::submit_with_data` (lines 348-361): always `Ok`, index 0,
payload stored; the table is untouched. -/
def LegacyInner.submit_with_data {α : Type} (s : Slab ScheduledIo) (data : α) :
    Except IoError (Op α) × Slab ScheduledIo :=
  (.ok { index := 0, data := some data }, s)

/-- `TOKEN_WAKEUP` (line 63): the reserved wake token `1 << 31`. -/
def TOKEN_WAKEUP : Nat := 2 ^ 31

/-- A multiplexer event, already translated to its token and readiness
bits (the `Ready::from(event)` translation of `driver/ready.rs`). -/
structure MuxEvent where
  token : Nat
  ready : Nat
deriving DecidableEq

/-- The wake-request drain phase of `inner_park` (lines 126-151), sync
feature on.  `q1` are the requests pending at the first drain, `q2` those
arriving between the two drains (the modelled race window); `awake` is the
Shared Wake Signal's flag.  Returns the invoked wakers, the stored flag,
and the effective timeout handed to the multiplexer wait. -/
def inner_park_drain (q1 q2 : List Waker) (awake : Bool) (timeout : Option Nat) :
    List Waker × Bool × Option Nat :=
  let needWait1 := q1.isEmpty
  let awake1 := if needWait1 then false else awake
  let needWait2 := needWait1 && q2.isEmpty
  (q1 ++ q2, awake1, if needWait2 then timeout else some 0)

/-- One step of the event loop body for a non-wakeup event. -/
def dispatchStep (acc : Slab ScheduledIo × List Waker) (ev : MuxEvent) :
    Slab ScheduledIo × List Waker :=
  let d := LegacyInner.dispatch acc.1 ev.token ev.ready
  (d.1, acc.2 ++ d.2)

/-- The event loop of `inner_park` (lines 164-178): wakeup-token events are
discarded, all others dispatched in order. -/
def processEvents (s : Slab ScheduledIo) (events : List MuxEvent) :
    Slab ScheduledIo × List Waker :=
  events.foldl (fun acc ev =>
    if ev.token = TOKEN_WAKEUP then acc else dispatchStep acc ev) (s, [])

/-- What one `inner_park` call produces: the new table, every waker invoked
(drained requests then dispatched cells), the stored awake flag, and the
timeout that was handed to the multiplexer wait. -/
structure ParkResult where
  table : Slab ScheduledIo
  woken : List Waker
  awakeFlag : Bool
  muxTimeout : Option Nat
deriving DecidableEq

/-- `LegacyDriver::inner_park` (lines 121-180): drain the wake-request
queue (twice, flipping the awake flag in between), wait on the multiplexer
(`waitResult` is the oracle answer; an interrupted wait is treated as an
empty batch), then dispatch every fired event, discarding the wakeup
token. -/
def LegacyDriver.inner_park (s : Slab ScheduledIo) (q1 q2 : List Waker)
    (awake : Bool) (timeout : Option Nat)
    (waitResult : Except IoError (List MuxEvent)) : Except IoError ParkResult :=
  let drained := inner_park_drain q1 q2 awake timeout
  let batch : Except IoError (List MuxEvent) :=
    match waitResult with
    | .ok evs => .ok evs
    | .error e => if e.kind = .interrupted then .ok [] else .error e
  match batch with
  | .error e => .error e
  | .ok evs =>
    let p := processEvents s evs
    .ok ⟨p.1, drained.1 ++ p.2, drained.2.1, drained.2.2⟩

end Monoio


namespace Monoio

/-! Helper lemmas about the table's index operations. -/

theorem nth_lt_length {α : Type} (l : List α) :
    ∀ (i : Nat) (a : α), nth l i = some a → i < l.length := by
  induction l with
  | nil => intro i a h; simp [nth] at h
  | cons b t ih =>
    intro i a h
    cases i with
    | zero => exact Nat.succ_pos _
    | succ n => exact Nat.succ_lt_succ (ih n a h)

theorem nth_ge_length {α : Type} (l : List α) :
    ∀ i : Nat, l.length ≤ i → nth l i = none := by
  induction l with
  | nil => intro i _; rfl
  | cons b t ih =>
    intro i h
    cases i with
    | zero => exact absurd h (by simp)
    | succ n => exact ih n (Nat.le_of_succ_le_succ h)

theorem nth_setIdx_self {α : Type} (l : List α) :
    ∀ (i : Nat) (v : α), i < l.length → nth (setIdx l i v) i = some v := by
  induction l with
  | nil => intro i v h; simp at h
  | cons b t ih =>
    intro i v h
    cases i with
    | zero => rfl
    | succ n => exact ih n v (Nat.lt_of_succ_lt_succ h)

theorem nth_setIdx_ne {α : Type} (l : List α) :
    ∀ (i j : Nat) (v : α), i ≠ j → nth (setIdx l i v) j = nth l j := by
  induction l with
  | nil => intro i j v _; rfl
  | cons b t ih =>
    intro i j v hij
    cases i with
    | zero =>
      cases j with
      | zero => exact absurd rfl hij
      | succ m => rfl
    | succ n =>
      cases j with
      | zero => rfl
      | succ m => exact ih n m v (fun h => hij (by rw [h]))

theorem setIdx_setIdx {α : Type} (l : List α) :
    ∀ (i : Nat) (a b : α), setIdx (setIdx l i a) i b = setIdx l i b := by
  induction l with
  | nil => intro i a b; rfl
  | cons c t ih =>
    intro i a b
    cases i with
    | zero => rfl
    | succ n => simp [setIdx, ih n a b]

theorem nth_append_lt {α : Type} (l m : List α) :
    ∀ i : Nat, i < l.length → nth (l ++ m) i = nth l i := by
  induction l with
  | nil => intro i h; simp at h
  | cons b t ih =>
    intro i h
    cases i with
    | zero => rfl
    | succ n => exact ih n (Nat.lt_of_succ_lt_succ h)

theorem setIdx_append_length {α : Type} (l : List α) :
    ∀ (x v : α), setIdx (l ++ [x]) l.length v = l ++ [v] := by
  induction l with
  | nil => intro x v; rfl
  | cons b t ih => intro x v; simp [setIdx, ih x v]

theorem nth_append_length {α : Type} (l : List α) :
    ∀ x : α, nth (l ++ [x]) l.length = some x := by
  induction l with
  | nil => intro x; rfl
  | cons b t ih => intro x; exact ih x

theorem firstFree_nth {α : Type} (l : List (Option α)) :
    ∀ i : Nat, firstFree l = some i → nth l i = some none := by
  induction l with
  | nil => intro i h; simp [firstFree] at h
  | cons b t ih =>
    intro i h
    cases b with
    | none =>
      simp [firstFree] at h
      subst h; rfl
    | some v =>
      simp only [firstFree, Option.map_eq_some'] at h
      obtain ⟨j, hj, hji⟩ := h
      subst hji
      exact ih j hj

/-! Helper lemmas about bit masks. -/

theorem clearMask_testBit (r m b : Nat) :
    (clearMask r m).testBit b = (r.testBit b && !(m.testBit b)) := by
  unfold clearMask
  rw [Nat.testBit_xor, Nat.testBit_land]
  cases r.testBit b <;> cases m.testBit b <;> rfl

theorem and_self_and (r m : Nat) : r &&& (r &&& m) = r &&& m := by
  refine Nat.eq_of_testBit_eq fun b => ?_
  simp only [Nat.testBit_land]
  cases r.testBit b <;> cases m.testBit b <;> rfl

theorem clearMask_own_and (r m : Nat) : clearMask r (r &&& m) = clearMask r m := by
  unfold clearMask
  rw [and_self_and]


/-- Claim C1: if insertion into the Registration Table succeeds but the
multiplexer-level register call fails, `register` removes the just-inserted
slot before returning the error: after a failed register the table resolves
every token exactly as before. -/
theorem register_rollback (s : Slab ScheduledIo) (e : IoError) :
    (LegacyDriver.register s (.error e)).1 = .error e ∧
    ∀ t : Nat, ((LegacyDriver.register s (.error e)).2).get t = s.get t := by
  unfold LegacyDriver.register Slab.insert
  cases hf : firstFree s.entries with
  | some i =>
    simp only [hf]
    refine ⟨by trivial, fun t => ?_⟩
    have hnth : nth s.entries i = some none := firstFree_nth s.entries i hf
    unfold Slab.remove Slab.get
    simp only
    rw [setIdx_setIdx]
    by_cases hti : t = i
    · subst hti
      rw [nth_setIdx_self s.entries t none (nth_lt_length s.entries t none hnth)]
      rw [hnth]
    · rw [nth_setIdx_ne s.entries i t none (fun h => hti h.symm)]
  | none =>
    simp only [hf]
    refine ⟨by trivial, fun t => ?_⟩
    unfold Slab.remove Slab.get
    simp only
    rw [setIdx_append_length]
    rcases Nat.lt_trichotomy t s.entries.length with hlt | heq | hgt
    · rw [nth_append_lt s.entries [none] t hlt]
    · subst heq
      rw [nth_append_length, nth_ge_length s.entries s.entries.length (Nat.le_refl _)]
      rfl
    · rw [nth_ge_length (s.entries ++ [(none : Option ScheduledIo)]) t
        (by simpa using hgt)]
      rw [nth_ge_length s.entries t (Nat.le_of_lt hgt)]

/-- Claim C2: `deregister` removes the handle from the multiplexer first;
only on success is the table slot freed; on multiplexer failure the error
is returned with the table untouched, and freeing one slot never affects
any other token. -/
theorem deregister_spec (s : Slab ScheduledIo) (token : Nat) :
    (∀ e : IoError, LegacyDriver.deregister s token (.error e) = (.error e, s)) ∧
    LegacyDriver.deregister s token (.ok ()) = (.ok (), s.remove token) ∧
    ∀ t : Nat, t ≠ token →
      ((LegacyDriver.deregister s token (.ok ())).2).get t = s.get t := by
  refine ⟨fun e => rfl, rfl, fun t ht => ?_⟩
  show (Slab.remove s token).get t = s.get t
  unfold Slab.remove Slab.get
  simp only
  rw [nth_setIdx_ne s.entries token t none (fun h => ht h.symm)]

theorem deregister_spec_witness :
    Slab.get (LegacyDriver.deregister
        (⟨[some ScheduledIo.new, none]⟩ : Slab ScheduledIo) 0 (.ok ())).2 1 =
      Slab.get (⟨[some ScheduledIo.new, none]⟩ : Slab ScheduledIo) 1 :=
  (deregister_spec ⟨[some ScheduledIo.new, none]⟩ 0).2.2 1 (by decide)

/-- Claim C9: `poll_op` on an operation whose fd dependency names a token
that is absent from the Registration Table panics with the message
"scheduled_io lost" (modelled as the error result) instead of being a
silent no-op. -/
theorem poll_op_lost (s : Slab ScheduledIo) (d : Direction) (index : Nat)
    (call : Except IoError Int) (w : Waker) (h : s.get index = none) :
    LegacyInner.poll_op s (some (d, index)) call w =
      Except.error "scheduled_io lost" := by
  simp [LegacyInner.poll_op, h]

theorem poll_op_lost_witness :
    LegacyInner.poll_op (⟨[]⟩ : Slab ScheduledIo) (some (Direction.read, 0))
        (Except.ok 0) 0 = Except.error "scheduled_io lost" :=
  poll_op_lost ⟨[]⟩ Direction.read 0 (Except.ok 0) 0 rfl

/-- Claim C10: `submit_with_data` never fails: it returns `Ok` with a
handle of index 0 carrying the payload, and the table is untouched. -/
theorem submit_with_data_spec {α : Type} (s : Slab ScheduledIo) (data : α) :
    LegacyInner.submit_with_data s data =
      (Except.ok { index := 0, data := some data }, s) := rfl


/-- Claim C3: `dispatch` on an absent token is a no-op returning no wakers;
on a live token the update is ORed into the readiness mask (never dropping
existing bits), any stored waker whose direction intersects the update is
invoked and cleared, and no other table entry changes. -/
theorem dispatch_spec (s : Slab ScheduledIo) (token : Nat) (ready : Nat) :
    (s.get token = none → LegacyInner.dispatch s token ready = (s, [])) ∧
    ∀ io : ScheduledIo, s.get token = some io →
      LegacyInner.dispatch s token ready =
        (s.update token
          { readiness := io.readiness ||| ready
            reader := if ready &&& Direction.read.mask != 0 then none else io.reader
            writer := if ready &&& Direction.write.mask != 0 then none else io.writer },
         (if ready &&& Direction.read.mask != 0 then io.reader.toList else []) ++
           (if ready &&& Direction.write.mask != 0 then io.writer.toList else [])) ∧
      (∀ b : Nat, io.readiness.testBit b = true →
        (io.readiness ||| ready).testBit b = true) ∧
      (∀ t2 : Nat, t2 ≠ token →
        ((LegacyInner.dispatch s token ready).1).get t2 = s.get t2) := by
  constructor
  · intro h
    unfold LegacyInner.dispatch
    rw [h]
  · intro io hio
    have hdef : LegacyInner.dispatch s token ready =
        (s.update token
          { readiness := io.readiness ||| ready
            reader := if ready &&& Direction.read.mask != 0 then none else io.reader
            writer := if ready &&& Direction.write.mask != 0 then none else io.writer },
         (if ready &&& Direction.read.mask != 0 then io.reader.toList else []) ++
           (if ready &&& Direction.write.mask != 0 then io.writer.toList else [])) := by
      unfold LegacyInner.dispatch ScheduledIo.set_readiness ScheduledIo.wake
      rw [hio]
    refine ⟨hdef, fun b hb => ?_, fun t2 ht2 => ?_⟩
    · rw [Nat.testBit_lor, hb]
      rfl
    · rw [hdef]
      show (Slab.update s token _).get t2 = s.get t2
      unfold Slab.update Slab.get
      simp only
      rw [nth_setIdx_ne s.entries token t2 _ (fun h => ht2 h.symm)]

theorem dispatch_spec_witness :
    LegacyInner.dispatch (⟨[]⟩ : Slab ScheduledIo) 3 1 = (⟨[]⟩, []) ∧
    ((LegacyInner.dispatch (⟨[some ⟨0, some 9, none⟩]⟩ : Slab ScheduledIo) 0 1).1).get 5 =
      Slab.get (⟨[some ⟨0, some 9, none⟩]⟩ : Slab ScheduledIo) 5 :=
  ⟨(dispatch_spec ⟨[]⟩ 3 1).1 rfl,
   ((dispatch_spec ⟨[some ⟨0, some 9, none⟩]⟩ 0 1).2 ⟨0, some 9, none⟩ rfl).2.2 5
     (by decide)⟩

/-- Claim C4: when the readiness observed for the operation direction has
its cancellation bit set, `poll_op` clears only that cancellation bit
(leaving every other readiness bit, the other direction included,
unchanged) and completes with the fixed operation-canceled error (raw OS
error 125), never consulting the retry callback. -/
theorem poll_op_canceled (s : Slab ScheduledIo) (d : Direction) (index : Nat)
    (io : ScheduledIo) (call : Except IoError Int) (w : Waker)
    (hio : s.get index = some io)
    (hne : io.readiness &&& d.mask ≠ 0)
    (hcan : Ready.is_canceled (io.readiness &&& d.mask) = true) :
    LegacyInner.poll_op s (some (d, index)) call w =
      Except.ok (Poll.ready ⟨Except.error (IoError.from_raw_os_error 125), 0⟩,
        s.update index
          (io.clear_readiness ((io.readiness &&& d.mask) &&& Ready.CANCELED))) ∧
    (io.clear_readiness ((io.readiness &&& d.mask) &&& Ready.CANCELED)).readiness =
      clearMask io.readiness d.cancelMask ∧
    clearMask io.readiness d.cancelMask &&& d.cancelMask = 0 ∧
    (∀ b : Nat, d.cancelMask.testBit b = false →
      (clearMask io.readiness d.cancelMask).testBit b = io.readiness.testBit b) ∧
    ∀ call2 : Except IoError Int,
      LegacyInner.poll_op s (some (d, index)) call2 w =
        LegacyInner.poll_op s (some (d, index)) call w := by
  have hmask : d.mask &&& Ready.CANCELED = d.cancelMask := by
    cases d <;> decide
  have hdef : ∀ c : Except IoError Int,
      LegacyInner.poll_op s (some (d, index)) c w =
        Except.ok (Poll.ready ⟨Except.error (IoError.from_raw_os_error 125), 0⟩,
          s.update index
            (io.clear_readiness ((io.readiness &&& d.mask) &&& Ready.CANCELED))) := by
    intro c
    simp [LegacyInner.poll_op, hio, hne, hcan]
  refine ⟨hdef call, ?_, ?_, ?_, fun call2 => (hdef call2).trans (hdef call).symm⟩
  · show clearMask io.readiness ((io.readiness &&& d.mask) &&& Ready.CANCELED) =
      clearMask io.readiness d.cancelMask
    rw [Nat.and_assoc, hmask, clearMask_own_and]
  · refine Nat.eq_of_testBit_eq fun b => ?_
    rw [Nat.testBit_land, clearMask_testBit, Nat.zero_testBit]
    cases io.readiness.testBit b <;> cases d.cancelMask.testBit b <;> rfl
  · intro b hb
    rw [clearMask_testBit, hb]
    cases io.readiness.testBit b <;> rfl

theorem poll_op_canceled_witness :
    LegacyInner.poll_op (⟨[some ⟨18, none, none⟩]⟩ : Slab ScheduledIo)
        (some (Direction.read, 0)) (Except.ok 1) 5 =
      Except.ok (Poll.ready ⟨Except.error (IoError.from_raw_os_error 125), 0⟩,
        Slab.update ⟨[some ⟨18, none, none⟩]⟩ 0
          (ScheduledIo.clear_readiness ⟨18, none, none⟩
            ((18 &&& Direction.read.mask) &&& Ready.CANCELED))) :=
  (poll_op_canceled ⟨[some ⟨18, none, none⟩]⟩ Direction.read 0 ⟨18, none, none⟩
    (Except.ok 1) 5 rfl (by decide) (by decide)).1


/-- Claim C5: with non-empty, non-canceled observed readiness, a
would-block result from the retry callback makes `poll_op` clear exactly
the direction readiness bits, store the caller waker for that direction
and return Pending; a success or any non-would-block error completes Ready
with that result and leaves the table untouched. -/
theorem poll_op_retry_spec (s : Slab ScheduledIo) (d : Direction) (index : Nat)
    (io : ScheduledIo) (w : Waker)
    (hio : s.get index = some io)
    (hne : io.readiness &&& d.mask ≠ 0)
    (hnc : Ready.is_canceled (io.readiness &&& d.mask) = false) :
    (∀ n : Int, LegacyInner.poll_op s (some (d, index)) (Except.ok n) w =
      Except.ok (Poll.ready ⟨Except.ok n, 0⟩, s)) ∧
    (∀ e : IoError, e.kind = ErrorKind.wouldBlock →
      LegacyInner.poll_op s (some (d, index)) (Except.error e) w =
        Except.ok (Poll.pending,
          s.update index ((io.clear_readiness d.mask).set_waker d w))) ∧
    (io.clear_readiness d.mask).readiness &&& d.mask = 0 ∧
    (∀ b : Nat, d.mask.testBit b = false →
      ((io.clear_readiness d.mask).readiness).testBit b = io.readiness.testBit b) ∧
    ((io.clear_readiness d.mask).set_waker d w).wakerFor d = some w ∧
    ∀ e : IoError, e.kind ≠ ErrorKind.wouldBlock →
      LegacyInner.poll_op s (some (d, index)) (Except.error e) w =
        Except.ok (Poll.ready ⟨Except.error e, 0⟩, s) := by
  refine ⟨?_, ?_, ?_, ?_, ?_, ?_⟩
  · intro n
    simp [LegacyInner.poll_op, hio, hne, hnc]
  · intro e he
    simp [LegacyInner.poll_op, hio, hne, hnc, he]
  · show clearMask io.readiness d.mask &&& d.mask = 0
    refine Nat.eq_of_testBit_eq fun b => ?_
    rw [Nat.testBit_land, clearMask_testBit, Nat.zero_testBit]
    cases io.readiness.testBit b <;> cases d.mask.testBit b <;> rfl
  · intro b hb
    show (clearMask io.readiness d.mask).testBit b = io.readiness.testBit b
    rw [clearMask_testBit, hb]
    cases io.readiness.testBit b <;> rfl
  · cases d <;> rfl
  · intro e he
    simp [LegacyInner.poll_op, hio, hne, hnc, he]

theorem poll_op_retry_witness :
    LegacyInner.poll_op (⟨[some ⟨1, none, none⟩]⟩ : Slab ScheduledIo)
        (some (Direction.read, 0)) (Except.ok 3) 4 =
      Except.ok (Poll.ready ⟨Except.ok 3, 0⟩, ⟨[some ⟨1, none, none⟩]⟩) :=
  (poll_op_retry_spec ⟨[some ⟨1, none, none⟩]⟩ Direction.read 0 ⟨1, none, none⟩ 4
    rfl (by decide) (by decide)).1 3

/-- Claim C6: in the drain phase of `inner_park` every request pending at
the first drain is dequeued and invoked; if the first drain found nothing
the awake flag is stored false before the second drain; and if either pass
dequeued anything the multiplexer timeout is forced to zero.  The last
conjunct ties the drain phase into `inner_park` itself. -/
theorem park_drain_spec (q1 q2 : List Waker) (awake : Bool) (timeout : Option Nat) :
    (inner_park_drain q1 q2 awake timeout).1 = q1 ++ q2 ∧
    (∀ x : Waker, x ∈ q1 → x ∈ (inner_park_drain q1 q2 awake timeout).1) ∧
    (q1 = [] → (inner_park_drain q1 q2 awake timeout).2.1 = false) ∧
    (q1 ≠ [] ∨ q2 ≠ [] → (inner_park_drain q1 q2 awake timeout).2.2 = some 0) ∧
    ∀ (s : Slab ScheduledIo) (evs : List MuxEvent),
      LegacyDriver.inner_park s q1 q2 awake timeout (Except.ok evs) =
        Except.ok ⟨(processEvents s evs).1,
          (inner_park_drain q1 q2 awake timeout).1 ++ (processEvents s evs).2,
          (inner_park_drain q1 q2 awake timeout).2.1,
          (inner_park_drain q1 q2 awake timeout).2.2⟩ := by
  refine ⟨rfl, ?_, ?_, ?_, fun _ _ => rfl⟩
  · intro x hx
    show x ∈ q1 ++ q2
    exact List.mem_append_left q2 hx
  · intro h
    subst h
    rfl
  · intro h
    show (if q1.isEmpty && q2.isEmpty then timeout else some 0) = some 0
    rcases h with h | h
    · rw [List.isEmpty_eq_false.mpr h]
      rfl
    · rw [List.isEmpty_eq_false.mpr h, Bool.and_false]
      rfl

theorem park_drain_witness :
    (inner_park_drain [] [7] true (some 5)).2.1 = false ∧
    (inner_park_drain [] [7] true (some 5)).2.2 = some 0 :=
  ⟨(park_drain_spec [] [7] true (some 5)).2.2.1 rfl,
   (park_drain_spec [] [7] true (some 5)).2.2.2.1 (Or.inr (by simp))⟩

/-- Claim C7: an Interrupted multiplexer wait is swallowed: `inner_park`
proceeds exactly as if the wait had returned an empty event batch and
returns Ok; every other wait error propagates to the caller. -/
theorem park_interrupted_spec (s : Slab ScheduledIo) (q1 q2 : List Waker)
    (awake : Bool) (timeout : Option Nat) (e : IoError) :
    (e.kind = ErrorKind.interrupted →
      LegacyDriver.inner_park s q1 q2 awake timeout (Except.error e) =
        LegacyDriver.inner_park s q1 q2 awake timeout (Except.ok []) ∧
      ∃ r : ParkResult,
        LegacyDriver.inner_park s q1 q2 awake timeout (Except.error e) =
          Except.ok r) ∧
    (e.kind ≠ ErrorKind.interrupted →
      LegacyDriver.inner_park s q1 q2 awake timeout (Except.error e) =
        Except.error e) := by
  constructor
  · intro he
    constructor
    · simp [LegacyDriver.inner_park, he]
    · refine ⟨⟨(processEvents s []).1,
        (inner_park_drain q1 q2 awake timeout).1 ++ (processEvents s []).2,
        (inner_park_drain q1 q2 awake timeout).2.1,
        (inner_park_drain q1 q2 awake timeout).2.2⟩, ?_⟩
      simp [LegacyDriver.inner_park, he]
  · intro he
    simp [LegacyDriver.inner_park, he]

theorem park_interrupted_witness :
    LegacyDriver.inner_park (⟨[]⟩ : Slab ScheduledIo) [] [] true none
        (Except.error ⟨ErrorKind.interrupted, none⟩) =
      LegacyDriver.inner_park (⟨[]⟩ : Slab ScheduledIo) [] [] true none
        (Except.ok []) :=
  ((park_interrupted_spec ⟨[]⟩ [] [] true none ⟨ErrorKind.interrupted, none⟩).1
    rfl).1

/-- Helper for C8: the event loop with any accumulator equals folding the
dispatch step over the events whose token is not the wakeup token. -/
theorem processEvents_filter (events : List MuxEvent) :
    ∀ acc : Slab ScheduledIo × List Waker,
      events.foldl (fun acc ev =>
          if ev.token = TOKEN_WAKEUP then acc else dispatchStep acc ev) acc =
        List.foldl dispatchStep acc
          (events.filter (fun ev => ev.token != TOKEN_WAKEUP)) := by
  induction events with
  | nil => intro acc; rfl
  | cons ev t ih =>
    intro acc
    by_cases h : ev.token = TOKEN_WAKEUP
    · simp [List.foldl_cons, List.filter_cons, h, ih]
    · simp [List.foldl_cons, List.filter_cons, h, ih]

/-- Claim C8: in the event loop of every park call, an event carrying the
reserved wake token is discarded without dispatching, and every other
event is dispatched to the cell matching its token, in order. -/
theorem park_events_spec (s : Slab ScheduledIo) (events : List MuxEvent) :
    processEvents s events =
      List.foldl dispatchStep (s, [])
        (events.filter (fun ev => ev.token != TOKEN_WAKEUP)) ∧
    ((∀ ev ∈ events, ev.token = TOKEN_WAKEUP) →
      processEvents s events = (s, [])) := by
  constructor
  · exact processEvents_filter events (s, [])
  · intro h
    rw [processEvents, processEvents_filter events (s, [])]
    have hnil : events.filter (fun ev => ev.token != TOKEN_WAKEUP) = [] := by
      rw [List.filter_eq_nil_iff]
      intro ev hev
      simp [h ev hev]
    rw [hnil]
    rfl

theorem park_events_witness :
    processEvents (⟨[]⟩ : Slab ScheduledIo) [⟨TOKEN_WAKEUP, 1⟩] = (⟨[]⟩, []) :=
  (park_events_spec ⟨[]⟩ [⟨TOKEN_WAKEUP, 1⟩]).2 (by
    intro ev hev
    simp only [List.mem_singleton] at hev
    subst hev
    rfl)

end Monoio
